import Mathlib

/-
  Verification of the nfl-analysis plotting pipeline.

  Shallow embedding of the two Python source files:
    - src/ftn_graphing.py : create_nfl_scatter_plot (team-level pipeline)
    - src/graphing.py     : create_qb_plot          (player/QB pipeline)

  Numbers are modelled as rationals; pandas missing values (NaN) as
  Option.none; fallible operations as Option/Except.
-/

namespace NFLA

/-! ## Python string primitives

Python `s.split(sep)` with an explicit separator splits at every occurrence
of the separator and keeps empty fragments; `s.split()` with no argument
splits on runs of whitespace and drops empty fragments.  Both are modelled
on the character list of the string. -/

/-- Split a character list at every character satisfying the test, keeping
empty fragments (semantics of Python `str.split(sep)` for a one-character
separator). -/
def splitCharsOn (p : Char → Bool) : List Char → List (List Char)
  | [] => [[]]
  | c :: cs =>
    if p c then [] :: splitCharsOn p cs
    else
      match splitCharsOn p cs with
      | [] => [[c]]
      | t :: ts => (c :: t) :: ts

/-- Python `s.split(" ")`: split at every single space, empty fragments kept. -/
def pySplitSpace (s : String) : List String :=
  (splitCharsOn (fun c => c = ' ') s.data).map (fun cs => String.mk cs)

/-- The characters Python `str.split()` treats as whitespace
(space, tab, newline, carriage return, vertical tab, form feed). -/
def pyIsSpace (c : Char) : Bool :=
  c = ' ' || c = '\t' || c = '\n' || c = '\r' || c = Char.ofNat 11 || c = Char.ofNat 12

/-- Python `s.split()`: split on whitespace runs, dropping empty fragments. -/
def pySplitWs (s : String) : List String :=
  ((splitCharsOn pyIsSpace s.data).map (fun cs => String.mk cs)).filter (fun t => t ≠ "")

/-- Python `" ".join(parts)`. -/
def joinWithSpace : List String → String
  | [] => ""
  | [s] => s
  | s :: rest => s ++ " " ++ joinWithSpace rest

/-! ## Label cleaning

ftn_graphing.py lines 85-86:
  label_parts = label_text.split(" ")
  clean_label = " ".join(label_parts[1:]) if len(label_parts) > 1 else label_text

graphing.py line 66 annotates each point with
  row["Player Name"].split()[-1]
i.e. the last whitespace-separated token of the player name. -/

/-- Team-pipeline label cleaning (ftn_graphing.py lines 85-86). -/
def cleanLabel (labelText : String) : String :=
  let labelParts := pySplitSpace labelText
  if labelParts.length > 1 then joinWithSpace labelParts.tail else labelText

/-- QB-pipeline display label (graphing.py line 66): the last
whitespace-separated token; none when the name has no tokens
(Python would raise IndexError there). -/
def qbDisplayLabel (s : String) : Option String :=
  (pySplitWs s).getLast?

/-- Modelled from the spec wording of claim C3: split the raw label on
whitespace; with more than one token drop the first and rejoin with single
spaces, with exactly one token keep the original string. -/
def specCleanLabel (s : String) : String :=
  let toks := pySplitWs s
  if toks.length > 1 then joinWithSpace toks.tail else s

/-- Modelled from the amended wording for the team pipeline: the label is
split at every single space character (empty fragments kept); with more
than one fragment the first is dropped and the rest rejoined by single
spaces, otherwise the label is unchanged. -/
def specAmendedTeamLabel (s : String) : String :=
  match pySplitSpace s with
  | [] => s
  | [_] => s
  | _ :: rest => joinWithSpace rest

/-- Modelled from the amended wording for the QB pipeline: the displayed
label is the last whitespace-separated token of the raw name. -/
def specAmendedQbLabel (s : String) : Option String :=
  ((pySplitWs s).reverse).head?

/-! ## Percentage-mean heuristic (ftn_graphing.py lines 25-28)

for col in [x_col, y_col]:
    if col in df.columns:
        if pd.api.types.is_numeric_dtype(df[col]) and df[col].mean() > 1:
            df[col] = df[col] / 100

A pandas column is modelled as a dtype flag plus a list of cells, a missing
cell (NaN) being none; Series.mean skips missing cells and is itself
missing on an all-missing column (and NaN > 1 is false in Python). -/

/-- A pandas column: numeric-dtype flag and the cells. -/
structure PdCol where
  numeric : Bool
  vals : List (Option ℚ)
deriving DecidableEq

/-- A pandas DataFrame: named columns in order. -/
structure PdFrame where
  cols : List (String × PdCol)
deriving DecidableEq

/-- pandas Series.mean with default skipna: the mean of the present cells,
missing when no cell is present. -/
def colMean (vals : List (Option ℚ)) : Option ℚ :=
  let xs := vals.filterMap id
  if xs.length = 0 then none else some (xs.sum / xs.length)

/-- The guard df[col].mean() > 1, false on a missing mean (NaN > 1). -/
def meanExceedsOne (vals : List (Option ℚ)) : Bool :=
  match colMean vals with
  | some m => decide (1 < m)
  | none => false

/-- One pass of the heuristic body on a single column. -/
def pctConvertStep (c : PdCol) : PdCol :=
  if c.numeric && meanExceedsOne c.vals then
    { c with vals := c.vals.map (Option.map (fun v => v / 100)) }
  else c

/-- Column lookup by name (first occurrence), df[col]. -/
def getCol (df : PdFrame) (n : String) : Option PdCol :=
  (df.cols.find? (fun p => p.1 = n)).map Prod.snd

/-- Replace the first column of the given name. -/
def setFirst : List (String × PdCol) → String → PdCol → List (String × PdCol)
  | [], _, _ => []
  | p :: ps, n, c => if p.1 = n then (n, c) :: ps else p :: setFirst ps n c

/-- One loop iteration of the heuristic: skip a name not in df.columns,
otherwise rewrite the column with pctConvertStep. -/
def applyPctHeuristic (df : PdFrame) (n : String) : PdFrame :=
  match getCol df n with
  | none => df
  | some c => ⟨setFirst df.cols n (pctConvertStep c)⟩

/-- The whole loop, for col in [x_col, y_col]. -/
def normalizeAxes (df : PdFrame) (x y : String) : PdFrame :=
  [x, y].foldl applyPctHeuristic df

theorem find_setFirst_self (l : List (String × PdCol)) (n : String) (c : PdCol)
    (h : (l.find? (fun p => p.1 = n)).isSome) :
    (setFirst l n c).find? (fun p => p.1 = n) = some (n, c) := by
  induction l with
  | nil => simp [List.find?] at h
  | cons p ps ih =>
    by_cases hp : p.1 = n
    · simp [setFirst, hp, List.find?]
    · rw [List.find?_cons_of_neg _ (by simp [hp])] at h
      rw [setFirst]
      simp only [hp, if_false]
      rw [List.find?_cons_of_neg _ (by simp [hp])]
      exact ih h

theorem find_setFirst_other (l : List (String × PdCol)) (n : String) (c : PdCol)
    (m : String) (hmn : m ≠ n) :
    (setFirst l n c).find? (fun p => p.1 = m) = l.find? (fun p => p.1 = m) := by
  induction l with
  | nil => simp [setFirst]
  | cons p ps ih =>
    by_cases hp : p.1 = n
    · have hnm : ¬ (n = m) := fun h => hmn h.symm
      simp [setFirst, hp, List.find?, hnm, hp ▸ hnm]
    · rw [setFirst]
      simp only [hp, if_false]
      by_cases hm : p.1 = m
      · simp [List.find?, hm]
      · simp [List.find?, hm, ih]

theorem getCol_applyPct_self (df : PdFrame) (n : String) (c : PdCol)
    (h : getCol df n = some c) :
    getCol (applyPctHeuristic df n) n = some (pctConvertStep c) := by
  unfold applyPctHeuristic
  rw [h]
  unfold getCol at h ⊢
  have hsome : (df.cols.find? (fun p => p.1 = n)).isSome := by
    cases hf : df.cols.find? (fun p => p.1 = n) with
    | none => rw [hf] at h; simp at h
    | some q => simp
  simp [find_setFirst_self df.cols n (pctConvertStep c) hsome]

theorem getCol_applyPct_other (df : PdFrame) (n m : String) (hmn : m ≠ n) :
    getCol (applyPctHeuristic df n) m = getCol df m := by
  unfold applyPctHeuristic
  cases hf : getCol df n with
  | none => rfl
  | some c =>
    unfold getCol
    simp [find_setFirst_other df.cols n (pctConvertStep c) m hmn]

theorem pctStep_of_gt (c : PdCol) (m : ℚ) (hnum : c.numeric = true)
    (hm : colMean c.vals = some m) (h1 : 1 < m) :
    pctConvertStep c = ⟨true, c.vals.map (Option.map (fun v => v / 100))⟩ := by
  have hguard : meanExceedsOne c.vals = true := by
    unfold meanExceedsOne
    rw [hm]
    exact decide_eq_true h1
  unfold pctConvertStep
  rw [hnum, hguard]
  simp

theorem pctStep_of_le (c : PdCol) (h : ∀ m, colMean c.vals = some m → m ≤ 1) :
    pctConvertStep c = c := by
  have hguard : meanExceedsOne c.vals = false := by
    unfold meanExceedsOne
    cases hm : colMean c.vals with
    | none => rfl
    | some m => exact decide_eq_false (not_lt.mpr (h m hm))
  unfold pctConvertStep
  rw [hguard]
  simp

/-- C1 (corrected): with two distinct declared axis columns, the heuristic
divides a numeric axis column of mean above 1 by 100, leaves an axis column
of mean at most 1 unchanged, and touches no other column.  (When both axes
name the same column the loop body runs twice on it, see the
counterexample.) -/
theorem C1_pct_heuristic (df : PdFrame) (x y : String) (hxy : x ≠ y) :
    (∀ c m, getCol df x = some c → c.numeric = true → colMean c.vals = some m → 1 < m →
      getCol (normalizeAxes df x y) x = some ⟨true, c.vals.map (Option.map (fun v => v / 100))⟩) ∧
    (∀ c m, getCol df y = some c → c.numeric = true → colMean c.vals = some m → 1 < m →
      getCol (normalizeAxes df x y) y = some ⟨true, c.vals.map (Option.map (fun v => v / 100))⟩) ∧
    (∀ c, getCol df x = some c → (∀ m, colMean c.vals = some m → m ≤ 1) →
      getCol (normalizeAxes df x y) x = some c) ∧
    (∀ c, getCol df y = some c → (∀ m, colMean c.vals = some m → m ≤ 1) →
      getCol (normalizeAxes df x y) y = some c) ∧
    (∀ n, n ≠ x → n ≠ y → getCol (normalizeAxes df x y) n = getCol df n) := by
  have hfold : normalizeAxes df x y = applyPctHeuristic (applyPctHeuristic df x) y := rfl
  have hxcol : ∀ c, getCol df x = some c →
      getCol (normalizeAxes df x y) x = some (pctConvertStep c) := by
    intro c hc
    rw [hfold, getCol_applyPct_other _ y x hxy]
    exact getCol_applyPct_self df x c hc
  have hycol : ∀ c, getCol df y = some c →
      getCol (normalizeAxes df x y) y = some (pctConvertStep c) := by
    intro c hc
    rw [hfold]
    have hy1 : getCol (applyPctHeuristic df x) y = some c := by
      rw [getCol_applyPct_other _ x y (fun h => hxy h.symm)]
      exact hc
    exact getCol_applyPct_self _ y c hy1
  refine ⟨?_, ?_, ?_, ?_, ?_⟩
  · intro c m hc hnum hm h1
    rw [hxcol c hc, pctStep_of_gt c m hnum hm h1]
  · intro c m hc hnum hm h1
    rw [hycol c hc, pctStep_of_gt c m hnum hm h1]
  · intro c hc hle
    rw [hxcol c hc, pctStep_of_le c hle]
  · intro c hc hle
    rw [hycol c hc, pctStep_of_le c hle]
  · intro n hnx hny
    rw [hfold, getCol_applyPct_other _ y n hny, getCol_applyPct_other _ x n hnx]

/-- Concrete frame for the C1 counterexample: one numeric column of mean
20000. -/
def c1df : PdFrame := ⟨[("A", ⟨true, [some 20000, some 20000]⟩)]⟩

/-- C1 counterexample: when both declared axes name the same column and its
mean still exceeds 1 after one division, the loop divides the column twice
(values end at v / 10000), so the column is not simply divided by 100 as
the claim states. -/
theorem C1_counterexample :
    getCol (normalizeAxes c1df "A" "A") "A" = some ⟨true, [some 2, some 2]⟩ ∧
    getCol (normalizeAxes c1df "A" "A") "A" ≠ some ⟨true, [some 200, some 200]⟩ := by
  have e0 : getCol c1df "A" = some ⟨true, [some 20000, some 20000]⟩ := rfl
  have hm0 : colMean [some (20000:ℚ), some 20000] = some 20000 := by
    simp [colMean] <;> norm_num
  have s1 : pctConvertStep ⟨true, [some 20000, some 20000]⟩ = ⟨true, [some 200, some 200]⟩ := by
    rw [pctStep_of_gt _ 20000 rfl hm0 (by norm_num)]
    norm_num
  have g1 : getCol (applyPctHeuristic c1df "A") "A" = some ⟨true, [some 200, some 200]⟩ := by
    rw [getCol_applyPct_self c1df "A" _ e0, s1]
  have hm1 : colMean [some (200:ℚ), some 200] = some 200 := by
    simp [colMean] <;> norm_num
  have s2 : pctConvertStep ⟨true, [some 200, some 200]⟩ = ⟨true, [some 2, some 2]⟩ := by
    rw [pctStep_of_gt _ 200 rfl hm1 (by norm_num)]
    norm_num
  have g2 : getCol (normalizeAxes c1df "A" "A") "A" = some ⟨true, [some 2, some 2]⟩ := by
    show getCol (applyPctHeuristic (applyPctHeuristic c1df "A") "A") "A" = _
    rw [getCol_applyPct_self _ "A" _ g1, s2]
  refine ⟨g2, ?_⟩
  rw [g2]
  intro h
  have h2 := Option.some.inj h
  have h3 := congrArg PdCol.vals h2
  simp at h3

/-- Concrete frame for the C1 witness. -/
def c1wdf : PdFrame :=
  ⟨[("A", ⟨true, [some 50]⟩), ("B", ⟨true, [some (1/2), some 1]⟩), ("C", ⟨true, [some 7]⟩)]⟩

/-- C1 witness: the amended statement evaluated on a concrete frame with
distinct axes. -/
theorem C1_pct_heuristic_w :
    ("A" : String) ≠ "B" ∧
    getCol (normalizeAxes c1wdf "A" "B") "A" =
      some ⟨true, [some (50:ℚ)].map (Option.map (fun v => v / 100))⟩ :=
  ⟨by decide,
   (C1_pct_heuristic c1wdf "A" "B" (by decide)).1 ⟨true, [some 50]⟩ 50
     rfl rfl (by simp [colMean] <;> norm_num) (by norm_num)⟩

/-- C2 (confirmed): re-applying the percentage-conversion step to a column
whose recorded mean is at most 1 (in particular an already-converted
column) changes nothing. -/
theorem C2_idempotent (c : PdCol) (h : ∀ m, colMean c.vals = some m → m ≤ 1) :
    pctConvertStep c = c :=
  pctStep_of_le c h

/-- C2 witness: a column of mean 3/4 is untouched by the conversion step. -/
theorem C2_idempotent_w :
    (∀ m, colMean (PdCol.mk true [some (1/2), some 1]).vals = some m → m ≤ 1) ∧
    pctConvertStep ⟨true, [some (1/2), some 1]⟩ = ⟨true, [some (1/2), some 1]⟩ :=
  have h : ∀ m, colMean (PdCol.mk true [some (1/2), some 1]).vals = some m → m ≤ 1 := by
    intro m hm
    have h2 : colMean (PdCol.mk true [some (1/2), some 1]).vals = some (3/4) := by
      simp [colMean] <;> norm_num
    rw [h2] at hm
    cases hm
    norm_num
  ⟨h, C2_idempotent ⟨true, [some (1/2), some 1]⟩ h⟩

/-- C3 counterexample: `"Dallas  Cowboys"` (two spaces) has the whitespace
tokens Dallas, Cowboys, so the claim predicts the cleaned label
`"Cowboys"`, but the code splits on single spaces keeping the empty
fragment and yields `" Cowboys"`; and in the QB pipeline the displayed
label for `"Gardner Minshew II"` is the last token `"II"`, not
`"Minshew II"` as the claim predicts. -/
theorem C3_counterexample :
    specCleanLabel "Dallas  Cowboys" = "Cowboys" ∧
    cleanLabel "Dallas  Cowboys" = " Cowboys" ∧
    cleanLabel "Dallas  Cowboys" ≠ specCleanLabel "Dallas  Cowboys" ∧
    specCleanLabel "Gardner Minshew II" = "Minshew II" ∧
    qbDisplayLabel "Gardner Minshew II" = some "II" := by
  decide

/-- C3 (corrected): the team pipeline splits the raw label at every single
space character keeping empty fragments, drops the first fragment when more
than one results and rejoins the rest with single spaces, otherwise keeps
the label; the QB pipeline instead displays only the last
whitespace-separated token of the name. -/
theorem C3_label_cleaning :
    (∀ s, cleanLabel s = specAmendedTeamLabel s) ∧
    (∀ s, qbDisplayLabel s = specAmendedQbLabel s) := by
  constructor
  · intro s
    unfold cleanLabel specAmendedTeamLabel
    cases h : pySplitSpace s with
    | nil => simp [h]
    | cons a rest =>
      cases rest with
      | nil => simp [h]
      | cons b rest2 => simp [h]
  · intro s
    unfold qbDisplayLabel specAmendedQbLabel
    rw [List.head?_reverse]

/-! ## Numeric coercion and row filtering

graphing.py line 27 coerces every declared numeric column with
pd.to_numeric(df[col], errors="coerce"): a cell that parses becomes a
float, anything else (including the empty string) becomes NaN.
graphing.py line 29 then filters rows with df[df["Plays"] >= min_plays]
(a NaN comparison is false, so a missing Plays value never passes).
ftn_graphing.py line 60 instead drops the rows missing a plotted axis:
plot_df = df.dropna(subset=[x_col, y_col]). -/

/-- A raw input cell before numeric coercion: a cell that parses as a
number, a non-empty non-numeric text cell, or the empty string. -/
inductive Raw where
  | num (q : ℚ)
  | text (s : String)
  | empty
deriving DecidableEq

/-- pd.to_numeric(..., errors="coerce") on one cell. -/
def toNumericCoerce : Raw → Option ℚ
  | .num q => some q
  | .text _ => none
  | .empty => none

/-- A coerced DataFrame: schema plus rows of possibly-missing numbers. -/
structure Table where
  cols : List String
  rows : List (List (Option ℚ))
deriving DecidableEq

/-- The cell of a row under a column name (missing when the column is
absent or the row is short). -/
def cellVal (t : Table) (r : List (Option ℚ)) (c : String) : Option ℚ :=
  match t.cols.findIdx? (fun n => n = c) with
  | some i => (r.get? i).join
  | none => none

/-- ftn_graphing.py line 60: plot_df = df.dropna(subset=[x_col, y_col]). -/
def dropnaXY (t : Table) (x y : String) : List (List (Option ℚ)) :=
  t.rows.filter (fun r => (cellVal t r x).isSome && (cellVal t r y).isSome)

/-- The column of values a row set exposes for one axis. -/
def axisValues (t : Table) (rows : List (List (Option ℚ))) (c : String) :
    List (Option ℚ) :=
  rows.map (fun r => cellVal t r c)

/-- A raw table before coercion (the QB pipeline's DataFrame). -/
structure RawTable where
  cols : List String
  rows : List (List Raw)
deriving DecidableEq

/-- graphing.py line 27 applied to the table. -/
def qbCoerce (t : RawTable) : Table :=
  ⟨t.cols, t.rows.map (fun r => r.map toNumericCoerce)⟩

/-- graphing.py line 29: df_plot = df[df["Plays"] >= min_plays]. -/
def qbFilter (t : RawTable) (minPlays : ℚ) : List (List (Option ℚ)) :=
  (qbCoerce t).rows.filter (fun r =>
    match cellVal (qbCoerce t) r "Plays" with
    | some v => decide (minPlays ≤ v)
    | none => false)

/-- C10 (confirmed): the minimum-sample filter keeps exactly the rows whose
Plays cell coerced to a number at least the threshold; a missing Plays
value never passes the comparison. -/
theorem C10_min_plays (t : RawTable) (minPlays : ℚ) (r : List (Option ℚ)) :
    r ∈ qbFilter t minPlays ↔
      r ∈ (qbCoerce t).rows ∧
        ∃ v, cellVal (qbCoerce t) r "Plays" = some v ∧ minPlays ≤ v := by
  unfold qbFilter
  rw [List.mem_filter]
  constructor
  · rintro ⟨hr, hcond⟩
    refine ⟨hr, ?_⟩
    cases hv : cellVal (qbCoerce t) r "Plays" with
    | none => rw [hv] at hcond; simp at hcond
    | some v =>
      rw [hv] at hcond
      exact ⟨v, rfl, of_decide_eq_true hcond⟩
  · rintro ⟨hr, v, hv, hle⟩
    refine ⟨hr, ?_⟩
    rw [hv]
    exact decide_eq_true hle

/-- Concrete raw table for the C10 witness: one row passing the threshold,
one below it, one with an unparsable Plays cell. -/
def c10t : RawTable :=
  ⟨["Plays", "X", "Y"],
   [[.num 200, .num 1, .num 2], [.num 50, .num 3, .num 4], [.empty, .num 5, .num 6]]⟩

/-- C10 witness: the row with Plays 200 passes the threshold 100. -/
theorem C10_min_plays_w : [some (200:ℚ), some 1, some 2] ∈ qbFilter c10t 100 :=
  (C10_min_plays c10t 100 [some 200, some 1, some 2]).mpr
    ⟨by decide, 200, by decide, by decide⟩

/-- Concrete raw table for the C4 counterexample: the second row has Plays
200 but an empty y cell. -/
def c4t : RawTable :=
  ⟨["Plays", "X", "Y"], [[.num 200, .num 1, .num 2], [.num 200, .num 1, .empty]]⟩

/-- C4 counterexample: in the QB pipeline a row whose y cell failed
coercion stays in the filtered Dataset (only the Plays threshold filters
rows), contradicting the claimed silent exclusion of rows missing a
plotted axis. -/
theorem C4_counterexample :
    [some (200:ℚ), some 1, none] ∈ qbFilter c4t 100 ∧
    cellVal (qbCoerce c4t) [some (200:ℚ), some 1, none] "Y" = none := by
  refine ⟨?_, by decide⟩
  decide

/-- C4 (corrected): failed coercion (including the empty string) yields a
missing cell rather than an error, and in the team pipeline the filtered
Dataset keeps exactly the rows with both plotted axes present, so every
axis value used downstream (statistics and rendering) is present.  (The QB
pipeline does not drop such rows, see the counterexample.) -/
theorem C4_missing_rows (t : Table) (x y : String) (r : List (Option ℚ)) :
    toNumericCoerce .empty = none ∧
    (∀ s, toNumericCoerce (.text s) = none) ∧
    (r ∈ dropnaXY t x y ↔
      r ∈ t.rows ∧ (cellVal t r x).isSome ∧ (cellVal t r y).isSome) ∧
    (∀ v ∈ axisValues t (dropnaXY t x y) x, v.isSome) ∧
    (∀ v ∈ axisValues t (dropnaXY t x y) y, v.isSome) := by
  refine ⟨rfl, fun _ => rfl, ?_, ?_, ?_⟩
  · unfold dropnaXY
    rw [List.mem_filter]
    constructor
    · rintro ⟨hr, hc⟩
      rw [Bool.and_eq_true] at hc
      exact ⟨hr, hc.1, hc.2⟩
    · rintro ⟨hr, hx, hy⟩
      exact ⟨hr, by rw [Bool.and_eq_true]; exact ⟨hx, hy⟩⟩
  · intro v hv
    unfold axisValues at hv
    rcases List.mem_map.mp hv with ⟨r2, hr2, hveq⟩
    unfold dropnaXY at hr2
    rcases List.mem_filter.mp hr2 with ⟨_, hc⟩
    rw [Bool.and_eq_true] at hc
    rw [← hveq]
    exact hc.1
  · intro v hv
    unfold axisValues at hv
    rcases List.mem_map.mp hv with ⟨r2, hr2, hveq⟩
    unfold dropnaXY at hr2
    rcases List.mem_filter.mp hr2 with ⟨_, hc⟩
    rw [Bool.and_eq_true] at hc
    rw [← hveq]
    exact hc.2

/-- Concrete coerced table for the C4 witness. -/
def c4wt : Table := ⟨["X", "Y"], [[some 1, some 2], [none, some 3]]⟩

/-- C4 witness: a row with both axes present is in the filtered Dataset. -/
theorem C4_missing_rows_w : [some (1:ℚ), some 2] ∈ dropnaXY c4wt "X" "Y" :=
  (C4_missing_rows c4wt "X" "Y" [some 1, some 2]).2.2.1.mpr (by decide)

/-! ## Axis statistics and limits

ftn_graphing.py lines 118-122:
  margin_x = plot_df[x_col].std() * 0.5
  ax.set_xlim(plot_df[x_col].min() - margin_x, plot_df[x_col].max() + margin_x)
graphing.py lines 100-103 are identical except the factor is 0.4.
pandas std uses ddof=1 and skips missing cells, giving NaN for fewer than
two present values; min and max skip missing cells and are NaN on an empty
column.  NaN results are modelled as none and propagate into the limits. -/

/-- The present (non-missing) cells of a column. -/
def someVals (vals : List (Option ℚ)) : List ℚ :=
  vals.filterMap id

/-- pandas Series.std (ddof = 1) squared, i.e. the sample variance over the
present cells; missing when fewer than two cells are present. -/
def sampleVar (vals : List (Option ℚ)) : Option ℚ :=
  let xs := someVals vals
  if 2 ≤ xs.length then
    match colMean vals with
    | some m => some ((xs.map (fun v => (v - m) ^ 2)).sum / ((xs.length : ℚ) - 1))
    | none => none
  else none

/-- pandas Series.std (ddof = 1): the square root of the sample variance. -/
noncomputable def sampleStd (vals : List (Option ℚ)) : Option ℝ :=
  (sampleVar vals).map (fun v => Real.sqrt ((v : ℚ) : ℝ))

/-- std() * factor, the margin used for axis padding. -/
noncomputable def axisMargin (vals : List (Option ℚ)) (r : ℚ) : Option ℝ :=
  (sampleStd vals).map (fun s => s * (r : ℝ))

/-- Team-pipeline margin, std() * 0.5 (ftn_graphing.py lines 118-119). -/
noncomputable def ftnMargin (vals : List (Option ℚ)) : Option ℝ :=
  axisMargin vals (1/2)

/-- QB-pipeline margin, std() * 0.4 (graphing.py lines 100-101). -/
noncomputable def qbMargin (vals : List (Option ℚ)) : Option ℝ :=
  axisMargin vals (2/5)

/-- pandas Series.min over the present cells (missing when none). -/
def listMin : List ℚ → Option ℚ
  | [] => none
  | x :: xs => some (xs.foldl min x)

/-- pandas Series.max over the present cells (missing when none). -/
def listMax : List ℚ → Option ℚ
  | [] => none
  | x :: xs => some (xs.foldl max x)

/-- The visible range [min - margin, max + margin] set for one axis; a
missing component makes the whole range non-numeric. -/
noncomputable def axisLimits (vals : List (Option ℚ)) (r : ℚ) : Option (ℝ × ℝ) :=
  match listMin (someVals vals), listMax (someVals vals), axisMargin vals r with
  | some lo, some hi, some m => some (((lo : ℚ) : ℝ) - m, ((hi : ℚ) : ℝ) + m)
  | _, _, _ => none

/-- Team-pipeline axis range (ftn_graphing.py lines 121-122). -/
noncomputable def ftnAxisLimits (vals : List (Option ℚ)) : Option (ℝ × ℝ) :=
  axisLimits vals (1/2)

/-- QB-pipeline axis range (graphing.py lines 102-103). -/
noncomputable def qbAxisLimits (vals : List (Option ℚ)) : Option (ℝ × ℝ) :=
  axisLimits vals (2/5)

theorem foldlMin_le (xs : List ℚ) :
    ∀ (a : ℚ), ∀ v ∈ a :: xs, xs.foldl min a ≤ v := by
  induction xs with
  | nil =>
    intro a v hv
    rcases List.mem_cons.mp hv with h | h
    · rw [h]; simp
    · simp at h
  | cons b bs ih =>
    intro a v hv
    rw [List.foldl_cons]
    have hseed : bs.foldl min (min a b) ≤ min a b :=
      ih (min a b) (min a b) (List.mem_cons_self _ _)
    rcases List.mem_cons.mp hv with h | h
    · rw [h]; exact le_trans hseed (min_le_left a b)
    · rcases List.mem_cons.mp h with h2 | h2
      · rw [h2]; exact le_trans hseed (min_le_right a b)
      · exact ih (min a b) v (List.mem_cons_of_mem _ h2)

theorem foldlMax_ge (xs : List ℚ) :
    ∀ (a : ℚ), ∀ v ∈ a :: xs, v ≤ xs.foldl max a := by
  induction xs with
  | nil =>
    intro a v hv
    rcases List.mem_cons.mp hv with h | h
    · rw [h]; simp
    · simp at h
  | cons b bs ih =>
    intro a v hv
    rw [List.foldl_cons]
    have hseed : max a b ≤ bs.foldl max (max a b) :=
      ih (max a b) (max a b) (List.mem_cons_self _ _)
    rcases List.mem_cons.mp hv with h | h
    · rw [h]; exact le_trans (le_max_left a b) hseed
    · rcases List.mem_cons.mp h with h2 | h2
      · rw [h2]; exact le_trans (le_max_right a b) hseed
      · exact ih (max a b) v (List.mem_cons_of_mem _ h2)

theorem listMin_le (xs : List ℚ) (lo : ℚ) (h : listMin xs = some lo) :
    ∀ v ∈ xs, lo ≤ v := by
  cases xs with
  | nil => simp [listMin] at h
  | cons a rest =>
    unfold listMin at h
    cases h
    exact foldlMin_le rest a

theorem le_listMax (xs : List ℚ) (hi : ℚ) (h : listMax xs = some hi) :
    ∀ v ∈ xs, v ≤ hi := by
  cases xs with
  | nil => simp [listMax] at h
  | cons a rest =>
    unfold listMax at h
    cases h
    exact foldlMax_ge rest a

theorem axisMargin_nonneg (vals : List (Option ℚ)) (r : ℚ) (hr : 0 ≤ r)
    (m : ℝ) (hm : axisMargin vals r = some m) : 0 ≤ m := by
  unfold axisMargin sampleStd at hm
  cases hv : sampleVar vals with
  | none => rw [hv] at hm; simp at hm
  | some v =>
    rw [hv] at hm
    simp only [Option.map_some'] at hm
    cases hm
    exact mul_nonneg (Real.sqrt_nonneg _) (by exact_mod_cast hr)

theorem axisLimits_bound (vals : List (Option ℚ)) (r : ℚ) (hr : 0 ≤ r)
    (lo hi : ℝ) (v : ℚ) (hv : v ∈ someVals vals)
    (hl : axisLimits vals r = some (lo, hi)) :
    lo ≤ (v : ℝ) ∧ (v : ℝ) ≤ hi := by
  unfold axisLimits at hl
  cases hmin : listMin (someVals vals) with
  | none => rw [hmin] at hl; simp at hl
  | some lo2 =>
    cases hmax : listMax (someVals vals) with
    | none => rw [hmin, hmax] at hl; simp at hl
    | some hi2 =>
      cases hm : axisMargin vals r with
      | none => rw [hmin, hmax, hm] at hl; simp at hl
      | some m =>
        rw [hmin, hmax, hm] at hl
        simp only [Option.some.injEq, Prod.mk.injEq] at hl
        have hm0 : 0 ≤ m := axisMargin_nonneg vals r hr m hm
        have h1 : lo2 ≤ v := listMin_le _ lo2 hmin v hv
        have h2 : v ≤ hi2 := le_listMax _ hi2 hmax v hv
        constructor
        · rw [← hl.1]
          have : ((lo2 : ℚ) : ℝ) ≤ (v : ℝ) := by exact_mod_cast h1
          linarith
        · rw [← hl.2]
          have : ((v : ℚ) : ℝ) ≤ (hi2 : ℝ) := by exact_mod_cast h2
          linarith

/-- C5 (corrected): in both pipelines each axis range is
[min - margin, max + margin] with a nonnegative margin (std times 0.5 in
the team pipeline, std times 0.4 in the QB pipeline), so every plotted
value lies inside the computed range. -/
theorem C5_axis_limits (vals : List (Option ℚ)) (lo hi : ℝ) (v : ℚ)
    (hv : v ∈ someVals vals) :
    (ftnAxisLimits vals = some (lo, hi) → lo ≤ (v : ℝ) ∧ (v : ℝ) ≤ hi) ∧
    (qbAxisLimits vals = some (lo, hi) → lo ≤ (v : ℝ) ∧ (v : ℝ) ≤ hi) :=
  ⟨fun hl => axisLimits_bound vals (1/2) (by norm_num) lo hi v hv hl,
   fun hl => axisLimits_bound vals (2/5) (by norm_num) lo hi v hv hl⟩

/-- Concrete column for the C5 counterexample: values 0, 2, 4 with sample
variance 4 and standard deviation 2. -/
def c5col : List (Option ℚ) := [some 0, some 2, some 4]

theorem sqrt_four_real : Real.sqrt (4 : ℝ) = 2 := by
  rw [show (4 : ℝ) = 2 ^ 2 by norm_num]
  exact Real.sqrt_sq (by norm_num)

/-- C5 counterexample: on the column 0, 2, 4 the QB pipeline's margin is
std * 0.4 = 0.8, not half the standard deviation (= 1) as the claim
states. -/
theorem C5_counterexample :
    qbMargin c5col ≠ (sampleStd c5col).map (fun s => s / 2) := by
  have hvar : sampleVar c5col = some 4 := by
    simp [sampleVar, someVals, colMean, c5col] <;> norm_num
  have hstd : sampleStd c5col = some 2 := by
    unfold sampleStd
    rw [hvar]
    simp only [Option.map_some']
    rw [show (((4 : ℚ) : ℝ)) = (4 : ℝ) by norm_num, sqrt_four_real]
  unfold qbMargin axisMargin
  rw [hstd]
  simp only [Option.map_some', ne_eq, Option.some.injEq]
  norm_num

/-- C5 witness: a constant column has variance 0, margin 0, and the value
2 lies inside the computed range [2, 2]. -/
theorem C5_axis_limits_w :
    ((2 : ℚ) ∈ someVals [some (2 : ℚ), some 2]) ∧
    ((2 : ℝ) ≤ (((2 : ℚ) : ℝ)) ∧ (((2 : ℚ) : ℝ)) ≤ (2 : ℝ)) := by
  have hvar : sampleVar [some (2 : ℚ), some 2] = some 0 := by
    simp [sampleVar, someVals, colMean] <;> norm_num
  have hm : axisMargin [some (2 : ℚ), some 2] (1/2) = some 0 := by
    unfold axisMargin sampleStd
    rw [hvar]
    simp
  have hsv : someVals [some (2 : ℚ), some 2] = [2, 2] := rfl
  have hmin2 : listMin (someVals [some (2 : ℚ), some 2]) = some 2 := by
    rw [hsv]; simp [listMin]
  have hmax2 : listMax (someVals [some (2 : ℚ), some 2]) = some 2 := by
    rw [hsv]; simp [listMax]
  have hlim : ftnAxisLimits [some (2 : ℚ), some 2] = some ((2 : ℝ), 2) := by
    unfold ftnAxisLimits axisLimits
    rw [hmin2, hmax2, hm]
    norm_num
  exact ⟨by decide, (C5_axis_limits [some 2, some 2] 2 2 2 (by decide)).1 hlim⟩

/-- C6 counterexample: on a one-row filtered Dataset the margin is missing
(NaN), not zero, and the axis limits are non-numeric. -/
theorem C6_counterexample :
    ftnMargin [some (5 : ℚ)] = none ∧ ftnMargin [some (5 : ℚ)] ≠ some 0 ∧
    ftnAxisLimits [some (5 : ℚ)] = none := by
  have h1 : ftnMargin [some (5 : ℚ)] = none := rfl
  refine ⟨h1, ?_, rfl⟩
  rw [h1]
  simp

/-- C6 (corrected): with zero or one present value the sample standard
deviation is missing, so both pipelines' margins and axis limits are
missing (non-numeric) rather than falling back to zero. -/
theorem C6_degenerate (vals : List (Option ℚ)) (h : (someVals vals).length ≤ 1) :
    sampleStd vals = none ∧ ftnMargin vals = none ∧ qbMargin vals = none ∧
    ftnAxisLimits vals = none ∧ qbAxisLimits vals = none := by
  have hvar : sampleVar vals = none := by
    unfold sampleVar
    have h2 : ¬ (2 ≤ (someVals vals).length) := by omega
    simp only [h2, if_false]
  have hstd : sampleStd vals = none := by
    unfold sampleStd
    rw [hvar]
    rfl
  have hmf : axisMargin vals (1/2) = none := by
    unfold axisMargin
    rw [hstd]
    rfl
  have hmq : axisMargin vals (2/5) = none := by
    unfold axisMargin
    rw [hstd]
    rfl
  have hlf : ftnAxisLimits vals = none := by
    unfold ftnAxisLimits axisLimits
    rw [hmf]
    cases listMin (someVals vals) <;> cases listMax (someVals vals) <;> rfl
  have hlq : qbAxisLimits vals = none := by
    unfold qbAxisLimits axisLimits
    rw [hmq]
    cases listMin (someVals vals) <;> cases listMax (someVals vals) <;> rfl
  exact ⟨hstd, hmf, hmq, hlf, hlq⟩

/-- C6 witness: the degenerate behaviour evaluated on a one-value column. -/
theorem C6_degenerate_w :
    (someVals [some (5 : ℚ)]).length ≤ 1 ∧ sampleStd [some (5 : ℚ)] = none :=
  ⟨by decide, (C6_degenerate [some 5] (by decide)).1⟩

/-! ## Axis inversion (ftn_graphing.py lines 117-127)

The limits are set from the data columns first; invert_xaxis /
invert_yaxis then flip the already-set range of their own axis. -/

/-- The two axis ranges of the matplotlib Axes object. -/
structure AxesState where
  xlim : Option (ℝ × ℝ)
  ylim : Option (ℝ × ℝ)

/-- ax.invert_xaxis(): flip the current x range. -/
def invertX (s : AxesState) : AxesState :=
  { s with xlim := s.xlim.map Prod.swap }

/-- ax.invert_yaxis(): flip the current y range. -/
def invertY (s : AxesState) : AxesState :=
  { s with ylim := s.ylim.map Prod.swap }

/-- Lines 118-127 in order: set both limits from the (non-inverted) data,
then apply the requested inversions. -/
noncomputable def renderAxes (cx cy : List (Option ℚ)) (ix iy : Bool) : AxesState :=
  let s1 : AxesState := ⟨ftnAxisLimits cx, ftnAxisLimits cy⟩
  let s2 := if ix then invertX s1 else s1
  if iy then invertY s2 else s2

/-- C7 (confirmed): the y limits do not depend on the invert-x flag, the x
limits do not depend on the invert-y flag, and inversion only reorients the
endpoints already computed from the data. -/
theorem C7_inversion (cx cy : List (Option ℚ)) (ix ix2 iy iy2 : Bool) :
    ((renderAxes cx cy ix iy).ylim = (renderAxes cx cy ix2 iy).ylim) ∧
    ((renderAxes cx cy ix iy).xlim = (renderAxes cx cy ix iy2).xlim) ∧
    (∀ p, (renderAxes cx cy ix iy).xlim = some p →
      ∃ q, ftnAxisLimits cx = some q ∧ ({p.1, p.2} : Set ℝ) = {q.1, q.2}) ∧
    (∀ p, (renderAxes cx cy ix iy).ylim = some p →
      ∃ q, ftnAxisLimits cy = some q ∧ ({p.1, p.2} : Set ℝ) = {q.1, q.2}) := by
  refine ⟨?_, ?_, ?_, ?_⟩
  · cases ix <;> cases ix2 <;> cases iy <;>
      simp [renderAxes, invertX, invertY]
  · cases iy <;> cases iy2 <;> cases ix <;>
      simp [renderAxes, invertX, invertY]
  · intro p hp
    cases hq : ftnAxisLimits cx with
    | none =>
      cases ix <;> cases iy <;>
        simp [renderAxes, invertX, invertY, hq] at hp
    | some q =>
      refine ⟨q, rfl, ?_⟩
      cases ix <;> cases iy <;>
          simp [renderAxes, invertX, invertY, hq] at hp <;>
        cases hp <;> simp [Prod.swap, Set.pair_comm]
  · intro p hp
    cases hq : ftnAxisLimits cy with
    | none =>
      cases ix <;> cases iy <;>
        simp [renderAxes, invertX, invertY, hq] at hp
    | some q =>
      refine ⟨q, rfl, ?_⟩
      cases ix <;> cases iy <;>
          simp [renderAxes, invertX, invertY, hq] at hp <;>
        cases hp <;> simp [Prod.swap, Set.pair_comm]

/-- C7 witness: the endpoint-preservation part evaluated with inversion on
a constant column whose range is [2, 2]. -/
theorem C7_inversion_w :
    ((renderAxes [some (2 : ℚ), some 2] [some 2, some 2] true false).xlim =
      some ((2 : ℝ), 2)) ∧
    (∃ q, ftnAxisLimits [some (2 : ℚ), some 2] = some q ∧
      ({(2 : ℝ), (2 : ℝ)} : Set ℝ) = {q.1, q.2}) := by
  have hvar : sampleVar [some (2 : ℚ), some 2] = some 0 := by
    simp [sampleVar, someVals, colMean] <;> norm_num
  have hm : axisMargin [some (2 : ℚ), some 2] (1/2) = some 0 := by
    unfold axisMargin sampleStd
    rw [hvar]
    simp
  have hsv : someVals [some (2 : ℚ), some 2] = [2, 2] := rfl
  have hmin2 : listMin (someVals [some (2 : ℚ), some 2]) = some 2 := by
    rw [hsv]; simp [listMin]
  have hmax2 : listMax (someVals [some (2 : ℚ), some 2]) = some 2 := by
    rw [hsv]; simp [listMax]
  have hlim : ftnAxisLimits [some (2 : ℚ), some 2] = some ((2 : ℝ), 2) := by
    unfold ftnAxisLimits axisLimits
    rw [hmin2, hmax2, hm]
    norm_num
  have hp : (renderAxes [some (2 : ℚ), some 2] [some 2, some 2] true false).xlim =
      some ((2 : ℝ), 2) := by
    simp [renderAxes, invertX, invertY, hlim, Prod.swap]
  exact ⟨hp,
    (C7_inversion [some 2, some 2] [some 2, some 2] true true false false).2.2.1
      ((2 : ℝ), 2) hp⟩

/-! ## Left join (ftn_graphing.py lines 18-21)

if secondary_csv and join_key:
    df = pd.merge(df, df_secondary, on=join_key, how="left",
                  suffixes=("", "_secondary"))

Rows are lists of possibly-missing string cells aligned with the schema.
A left merge emits one output row per primary row and secondary match, or
one row with the secondary fields missing when there is no match; the key
column appears once (from the primary), a shared non-key column name keeps
the primary name and the secondary copy gets the _secondary suffix. -/

/-- The state of the image asset behind a path: no file, a file whose
decode throws, or a good file. -/
inductive AssetState where
  | absent
  | broken
  | ok
deriving DecidableEq

/-- Marker drawn for one team-pipeline record. -/
inductive FtnMarker where
  | logo
  | dot
deriving DecidableEq

/-- What the team pipeline draws for one record. -/
structure FtnDrawn where
  marker : FtnMarker
  label : String
deriving DecidableEq

/-- What the QB pipeline draws for one record: an optional logo (no
fallback dot exists there) and the last-token text label. -/
structure QbDrawn where
  hasLogo : Bool
  label : String
deriving DecidableEq

/-- One plotted record: identity key for the asset lookup and the raw
label text. -/
structure PlotRecord where
  key : String
  labelText : String
deriving DecidableEq

/-- data/logos/<key>.png (ftn_graphing.py line 73, graphing.py line 57). -/
def logoPath (r : PlotRecord) : String := "data/logos/" ++ r.key ++ ".png"

/-- ftn_graphing.py getImage: None for a missing file, and any decode
exception is caught and turned into None. -/
def ftnGetImage (env : String → AssetState) (path : String) : Option Unit :=
  match env path with
  | .ok => some ()
  | .absent => none
  | .broken => none

/-- graphing.py getImage: None for a missing file, but a decode exception
escapes (no try/except). -/
def qbGetImage (env : String → AssetState) (path : String) :
    Except Unit (Option Unit) :=
  match env path with
  | .ok => .ok (some ())
  | .absent => .ok none
  | .broken => .error ()

/-- Team-pipeline loop body (ftn_graphing.py lines 75-91): logo when the
image resolved, else the fallback dot; the cleaned label is always drawn. -/
def ftnRenderRecord (env : String → AssetState) (r : PlotRecord) : FtnDrawn :=
  match ftnGetImage env (logoPath r) with
  | some _ => ⟨.logo, cleanLabel r.labelText⟩
  | none => ⟨.dot, cleanLabel r.labelText⟩

/-- The whole team-pipeline plot loop. -/
def ftnRenderAll (env : String → AssetState) : List PlotRecord → List FtnDrawn
  | [] => []
  | r :: rs => ftnRenderRecord env r :: ftnRenderAll env rs

/-- QB-pipeline loop body (graphing.py lines 55-69): a decode exception
aborts; otherwise the logo is drawn only when an image resolved (no
fallback dot) and the label is the last token of the player name, where
the IndexError that split()[-1] raises on a token-less name also aborts. -/
def qbRenderRecord (env : String → AssetState) (r : PlotRecord) :
    Except Unit QbDrawn :=
  match qbGetImage env (logoPath r) with
  | .error e => .error e
  | .ok img =>
    match qbDisplayLabel r.labelText with
    | none => .error ()
    | some lbl => .ok ⟨img.isSome, lbl⟩

/-- The whole QB-pipeline plot loop: the first decode exception aborts the
remaining records. -/
def qbRenderAll (env : String → AssetState) : List PlotRecord → Except Unit (List QbDrawn)
  | [] => .ok []
  | r :: rs =>
    match qbRenderRecord env r with
    | .error e => .error e
    | .ok d =>
      match qbRenderAll env rs with
      | .error e => .error e
      | .ok ds => .ok (d :: ds)

/-- Whether an Except value is a success. -/
def exceptOk {ε α : Type} : Except ε α → Bool
  | .ok _ => true
  | .error _ => false

/-- A concrete record for the C9 counterexample. -/
def c9rec : PlotRecord := ⟨"DAL", "Dallas Cowboys"⟩

/-- C9 counterexample: with the record's asset present but undecodable,
the QB pipeline aborts the whole plot (and with the asset absent it draws
no fallback marker, only the label), while the team pipeline on the same
input degrades to the fallback dot with its label. -/
theorem C9_counterexample :
    qbRenderAll (fun _ => .broken) [c9rec] = .error () ∧
    qbRenderRecord (fun _ => .absent) c9rec = .ok ⟨false, "Cowboys"⟩ ∧
    ftnRenderAll (fun _ => .broken) [c9rec] = [⟨.dot, "Cowboys"⟩] :=
  ⟨rfl, rfl, rfl⟩

/-- C9 (corrected): in the team pipeline a record whose asset is missing
or throws during decode is rendered as the fallback dot with its label and
every record renders independently of the others' assets; in the QB
pipeline a missing asset yields no marker (only the last-token label), an
asset that throws during decode aborts the whole plot, and a QB plot that
completes had no broken asset. -/
theorem C9_asset_fallback (env : String → AssetState) (r : PlotRecord)
    (rs : List PlotRecord) :
    (env (logoPath r) ≠ .ok → ftnRenderRecord env r = ⟨.dot, cleanLabel r.labelText⟩) ∧
    (ftnRenderAll env rs = rs.map (ftnRenderRecord env)) ∧
    (∀ lbl, qbDisplayLabel r.labelText = some lbl → env (logoPath r) = .absent →
      qbRenderRecord env r = .ok ⟨false, lbl⟩) ∧
    (env (logoPath r) = .broken → qbRenderRecord env r = .error ()) ∧
    (exceptOk (qbRenderAll env rs) = true → ∀ r2 ∈ rs, env (logoPath r2) ≠ .broken) := by
  refine ⟨?_, ?_, ?_, ?_, ?_⟩
  · intro h
    unfold ftnRenderRecord ftnGetImage
    cases he : env (logoPath r) with
    | ok => exact absurd he h
    | absent => rfl
    | broken => rfl
  · induction rs with
    | nil => rfl
    | cons r2 rs2 ih => rw [List.map_cons, ftnRenderAll, ih]
  · intro lbl hlbl habs
    unfold qbRenderRecord qbGetImage
    rw [habs, hlbl]
    rfl
  · intro hbr
    unfold qbRenderRecord qbGetImage
    rw [hbr]
  · induction rs with
    | nil =>
      intro _ r2 hr2
      simp at hr2
    | cons r2 rs2 ih =>
      rw [qbRenderAll]
      cases he : qbRenderRecord env r2 with
      | error e =>
        intro hfalse
        exact absurd hfalse (by simp [exceptOk])
      | ok d =>
        cases ha : qbRenderAll env rs2 with
        | error e2 =>
          intro hfalse
          exact absurd hfalse (by simp [exceptOk])
        | ok ds =>
          intro _ r3 hr3
          rcases List.mem_cons.mp hr3 with h3 | h3
          · rw [h3]
            intro hc
            unfold qbRenderRecord qbGetImage at he
            rw [hc] at he
            simp at he
          · rw [ha] at ih
            exact ih rfl r3 h3

/-- C9 witness: the fallback conjunct applied to a concrete broken-asset
environment. -/
theorem C9_asset_fallback_w :
    ((fun _ => AssetState.broken) (logoPath c9rec) ≠ AssetState.ok) ∧
    ftnRenderRecord (fun _ => AssetState.broken) c9rec =
      ⟨.dot, cleanLabel c9rec.labelText⟩ :=
  ⟨by decide,
   (C9_asset_fallback (fun _ => AssetState.broken) c9rec []).1 (by decide)⟩

end NFLA
